import Mathlib

/-!
Verification of the Deep_Voice_New_Agent audio pipeline.

Shallow embedding notes:
- Raw PCM bytes are modelled as `List Nat`; a block or frame is one such list.
- Python floats (the constants 0.8 and the `ratio` argument) are modelled as
  exact rationals; Python `int()` truncation toward zero is `pyInt`.
- Python `deque(maxlen=cap)` append is `dequePush`; Python slicing `l[-k:]`
  is `pySliceLast` (including the `k = 0` edge case where `l[-0:] = l`).
- External collaborators (the webrtcvad classifier, OpenAI calls, the
  Smallest.ai client, the sound device) are opaque parameters: a classifier
  is a function `List Nat → Bool`, a service call is a `SvcResult`.
-/

/-- Python `collections.deque(maxlen := cap).append x`: append on the right,
evicting from the left when the capacity is exceeded. -/
def dequePush (cap : Nat) (l : List α) (x : α) : List α :=
  let l2 := l ++ [x]
  if cap < l2.length then l2.drop (l2.length - cap) else l2

/-- Python slicing `l[-k:]` (the last `k` elements; for `k = 0` Python gives
the whole list, since `l[-0:] = l[0:]`). -/
def pySliceLast (k : Nat) (l : List α) : List α :=
  if k = 0 then l else l.drop (l.length - k)

/-- Python `int()` applied to a rational: truncation toward zero. -/
def pyInt (q : ℚ) : ℤ :=
  if 0 ≤ q then ⌊q⌋ else ⌈q⌉

/-- `Frame` from `vad_utils.py`: raw byte slice, timestamp, duration. -/
structure AFrame where
  bytes : List Nat
  timestamp : ℚ
  duration : ℚ
deriving DecidableEq

/-- The slicing loop of `VADAudio.frame_generator` (`vad_utils.py`): while
`offset + n ≤ len(audio)`, yield `audio[offset : offset+n]` and advance.
The Python loop does not terminate when the configured frame size is zero;
the guard `0 < n` records that the embedding is defined only where the
source terminates (it never runs with `frame_size = 0`). -/
def frameGenAux (n : Nat) (dur : ℚ) (ts : ℚ) (audio : List Nat) : List AFrame :=
  if h : 0 < n ∧ n ≤ audio.length then
    ⟨audio.take n, ts, dur⟩ :: frameGenAux n dur (ts + dur) (audio.drop n)
  else
    []
termination_by audio.length
decreasing_by
  simp only [List.length_drop]
  exact Nat.sub_lt (Nat.lt_of_lt_of_le h.1 h.2) h.1

/-- `VADAudio.frame_generator` (`vad_utils.py`): slice `audio` into
non-overlapping frames of `n` bytes, with timestamps starting at 0 and
duration `n / (2 * sample_rate)`. -/
def frame_generator (n : Nat) (sample_rate : ℚ) (audio : List Nat) : List AFrame :=
  frameGenAux n ((n : ℚ) / (2 * sample_rate)) 0 audio

/-- The mutable state of `VADAudio.vad_collector` (`vad_utils.py`):
the `triggered` flag, the accumulated `voiced_frames`, and the
`(frame, is_speech)` ring buffer (oldest first). -/
structure VadState where
  triggered : Bool
  voiced_frames : List (List Nat)
  ring_buffer : List (List Nat × Bool)
deriving DecidableEq

/-- One iteration of the `for frame in frames` loop of
`VADAudio.vad_collector` (`vad_utils.py`), returning the new state and the
optionally yielded segment. `num_voiced` is the precomputed
`int(num_padding_frames * ratio)`; `cap` is the ring capacity
(`num_padding_frames`); `isSpeech` is the opaque webrtcvad classifier. -/
def vad_collector_step (cap : Nat) (num_voiced : ℤ) (isSpeech : List Nat → Bool)
    (st : VadState) (frame : List Nat) : VadState × Option (List Nat) :=
  let sp := isSpeech frame
  if st.triggered = false then
    let ring := dequePush cap st.ring_buffer (frame, sp)
    let num_voiced_frames := (ring.filter (fun p => p.2)).length
    if (4 / 5 : ℚ) * cap < (num_voiced_frames : ℚ) then
      (⟨true, st.voiced_frames ++ ring.map (fun p => p.1), []⟩, none)
    else
      (⟨false, st.voiced_frames, ring⟩, none)
  else
    let voiced := st.voiced_frames ++ [frame]
    let ring := dequePush cap st.ring_buffer (frame, sp)
    let num_unvoiced := (ring.filter (fun p => !p.2)).length
    if num_voiced < (num_unvoiced : ℤ) then
      (⟨false, [], []⟩, some voiced.flatten)
    else
      (⟨true, voiced, ring⟩, none)

/-- Run a collector step function over a frame list, concatenating the
yielded segments in order. -/
def vadFold (step : VadState → List Nat → VadState × Option (List Nat)) :
    VadState → List (List Nat) → VadState × List (List Nat)
  | st, [] => (st, [])
  | st, f :: fs =>
    let p := step st f
    let r := vadFold step p.1 fs
    (r.1, p.2.toList ++ r.2)

/-- `VADAudio.vad_collector` (`vad_utils.py`): run the two-state machine over
`frames` starting from `triggered = False`, `voiced_frames = []` and the
instance ring buffer `ring0`, then flush the trailing partial segment if
`voiced_frames` is non-empty. -/
def vad_collector (cap : Nat) (ratio : ℚ) (isSpeech : List Nat → Bool)
    (ring0 : List (List Nat × Bool)) (frames : List (List Nat)) : List (List Nat) :=
  let r := vadFold (vad_collector_step cap (pyInt ((cap : ℚ) * ratio)) isSpeech)
    ⟨false, [], ring0⟩ frames
  r.2 ++ (if r.1.voiced_frames = [] then [] else [r.1.voiced_frames.flatten])

/-- One step of the segment collector as the specification words it:
while Idle push `(frame, is_speech)` and transition when the count of
speech-flagged entries exceeds 0.8 of the ring capacity; while Triggered
append the frame and yield when the count of non-speech entries exceeds
`trigger_ratio * ring_capacity`. Differs from `vad_collector_step` only in
comparing against the exact rational `ratio * cap` rather than the
precomputed `int(cap * ratio)`. -/
def collect_segments_spec_step (cap : Nat) (ratio : ℚ) (isSpeech : List Nat → Bool)
    (st : VadState) (frame : List Nat) : VadState × Option (List Nat) :=
  let sp := isSpeech frame
  if st.triggered = false then
    let ring := dequePush cap st.ring_buffer (frame, sp)
    let num_voiced_frames := (ring.filter (fun p => p.2)).length
    if (4 / 5 : ℚ) * cap < (num_voiced_frames : ℚ) then
      (⟨true, st.voiced_frames ++ ring.map (fun p => p.1), []⟩, none)
    else
      (⟨false, st.voiced_frames, ring⟩, none)
  else
    let voiced := st.voiced_frames ++ [frame]
    let ring := dequePush cap st.ring_buffer (frame, sp)
    let num_unvoiced := (ring.filter (fun p => !p.2)).length
    if ratio * (cap : ℚ) < (num_unvoiced : ℚ) then
      (⟨false, [], []⟩, some voiced.flatten)
    else
      (⟨true, voiced, ring⟩, none)

/-- The segment collector as the specification words it, end of sequence
flush included. -/
def collect_segments_spec (cap : Nat) (ratio : ℚ) (isSpeech : List Nat → Bool)
    (ring0 : List (List Nat × Bool)) (frames : List (List Nat)) : List (List Nat) :=
  let r := vadFold (collect_segments_spec_step cap ratio isSpeech)
    ⟨false, [], ring0⟩ frames
  r.2 ++ (if r.1.voiced_frames = [] then [] else [r.1.voiced_frames.flatten])

/-- `CaptureState` of `AudioListener` (`audio_listener.py`): the raw-block
queue, the rolling byte buffer, and the barge-in `speech_detected` flag. -/
structure CaptureState where
  audio_queue : List (List Nat)
  buffer : List Nat
  speech_detected : Bool
deriving DecidableEq

/-- `AudioListener._callback` (`audio_listener.py`): push the block onto the
queue, extend the rolling buffer truncating to the last `maxLen` bytes when
`MAX_BUFFER_LEN` is exceeded, and, when the block is at least one frame
long, classify the block's last `frame_size` bytes and write the result to
the `speech_detected` flag. -/
def listener_callback (frame_size maxLen : Nat) (isSpeech : List Nat → Bool)
    (st : CaptureState) (block : List Nat) : CaptureState :=
  let q := st.audio_queue ++ [block]
  let b0 := st.buffer ++ block
  let b := if maxLen < b0.length then pySliceLast maxLen b0 else b0
  let sd :=
    if frame_size ≤ block.length then isSpeech (pySliceLast frame_size block)
    else st.speech_detected
  ⟨q, b, sd⟩

/-- A sequence of device callbacks delivered to one `AudioListener`. -/
def run_callbacks (frame_size maxLen : Nat) (isSpeech : List Nat → Bool)
    (st : CaptureState) (blocks : List (List Nat)) : CaptureState :=
  blocks.foldl (listener_callback frame_size maxLen isSpeech) st

/-- The speaking-flag update as the claim words it: classify the most recent
one-frame-length suffix of the block, or, when the block is smaller than one
frame, of the concatenation of prior residual bytes with the block. -/
def speaking_flag_claim (frame_size : Nat) (isSpeech : List Nat → Bool)
    (residual block : List Nat) : Bool :=
  if frame_size ≤ block.length then isSpeech (pySliceLast frame_size block)
  else isSpeech (pySliceLast frame_size (residual ++ block))

/-- Per-session coordinator state used by `ConversationManager.run_loop`
(`conversation_manager.py`): the sliding window of recent speaking flags
(`deque(maxlen=10)`), the silence-start timestamp, the local accumulation
buffer, the listener's rolling buffer (cleared by `reset_buffer()` on
finalize), and the list of audio snapshots handed to `process_turn`. -/
structure CoordState where
  window : List Bool
  silence_start : Option ℚ
  buffer : List Nat
  listener_buffer : List Nat
  processed : List (List Nat)
deriving DecidableEq

/-- One iteration of the `while listener.listening` loop of
`ConversationManager.run_loop` (`conversation_manager.py`) in which a block
was dequeued: extend the buffer, push the current speaking flag into the
sliding window, and run the silence logic; on a silence run of at least
0.8 s, reset the listener buffer, clear the window, snapshot and clear the
buffer, and hand the snapshot to `process_turn`. -/
def run_loop_step (st : CoordState) (chunk : List Nat) (sp : Bool) (now : ℚ) :
    CoordState :=
  let buffer := st.buffer ++ chunk
  let window := dequePush 10 st.window sp
  if window.any (fun b => b) then
    { st with buffer := buffer, window := window, silence_start := none }
  else
    match st.silence_start with
    | none => { st with buffer := buffer, window := window, silence_start := some now }
    | some t0 =>
      if (4 / 5 : ℚ) ≤ now - t0 then
        { window := [], silence_start := none, buffer := [],
          listener_buffer := [], processed := st.processed ++ [buffer] }
      else
        { st with buffer := buffer, window := window, silence_start := some t0 }

/-- The coordinator step as the claim words it: push the speaking flag into
the sliding window; if any entry is true reset silence-start to unset;
otherwise set silence-start to now if it is unset, and finalize (snapshot
and clear the buffer, clear the window, hand the snapshot to turn
processing) once now minus silence-start reaches the 0.8 s threshold. -/
def coordinator_spec_step (st : CoordState) (chunk : List Nat) (sp : Bool) (now : ℚ) :
    CoordState :=
  let buffer := st.buffer ++ chunk
  let window := dequePush 10 st.window sp
  if window.any (fun b => b) then
    { st with buffer := buffer, window := window, silence_start := none }
  else
    let ss := st.silence_start.getD now
    if (4 / 5 : ℚ) ≤ now - ss then
      { window := [], silence_start := none, buffer := [],
        listener_buffer := [], processed := st.processed ++ [buffer] }
    else
      { st with buffer := buffer, window := window, silence_start := some ss }

/-- One history entry of a session: a `{role, content}` dictionary. -/
structure Msg where
  role : String
  content : String
deriving DecidableEq

/-- The continuation keywords of `ConversationManager._is_followup`
(`conversation_manager.py`). -/
def followupKeywords : List String :=
  ["also", "and", "by the way", "what about", "continue"]

/-- Executable prefix test on character lists. -/
def listPrefixOf : List Char → List Char → Bool
  | [], _ => true
  | _ :: _, [] => false
  | a :: xs, b :: ys => a == b && listPrefixOf xs ys

/-- Executable contiguous-substring test on character lists: Python's
`needle in hay`. `listContains_iff` below shows it decides `<:+:`. -/
def listContains (needle hay : List Char) : Bool :=
  match hay with
  | [] => listPrefixOf needle []
  | _ :: t => listPrefixOf needle hay || listContains needle t

/-- Python `str.lower()` as a character list: lowercase every character. -/
def lowerChars (s : String) : List Char := s.toList.map Char.toLower

/-- `ConversationManager._is_followup` (`conversation_manager.py`): false
when the previous input is empty, otherwise true iff some keyword occurs as
a substring of the lowercased new input. -/
def is_followup (new_input last_input : String) : Bool :=
  if last_input = "" then false
  else followupKeywords.any (fun kw => listContains kw.toList (lowerChars new_input))

/-- The continuation test as the claim words it: the new text contains,
case-insensitively, at least one continuation keyword. -/
def containsContinuationKw (t : String) : Bool :=
  followupKeywords.any (fun kw => listContains kw.toList (lowerChars t))

/-- The history mutation of `ConversationManager.process_turn`
(`conversation_manager.py`, lines 101-108): if the history is non-empty, its
last entry has role "user" and `_is_followup` holds, pop that entry and
append the merged user entry; otherwise append the transcription as a new
user entry. -/
def apply_user_turn (history : List Msg) (transcription : String) : List Msg :=
  match history.getLast? with
  | some m =>
    if m.role = "user" && is_followup transcription m.content then
      history.dropLast ++ [⟨"user", m.content ++ " " ++ transcription⟩]
    else
      history ++ [⟨"user", transcription⟩]
  | none => history ++ [⟨"user", transcription⟩]

/-- Count of user entries in a history. -/
def userCount (history : List Msg) : Nat :=
  (history.filter (fun m => m.role = "user")).length

/-- Python `str.strip()` on a character list: drop whitespace from both
ends. -/
def stripChars (l : List Char) : List Char :=
  ((l.dropWhile Char.isWhitespace).reverse.dropWhile Char.isWhitespace).reverse

/-- Python `str.strip()` on a string. -/
def pyStrip (s : String) : String := String.mk (stripChars s.toList)

/-- Outcome of one opaque external service call (OpenAI transcription or
chat completion): the returned text, or a raised exception. -/
inductive SvcResult where
  | ok (text : String)
  | err
deriving DecidableEq

/-- `transcribe_audio` (`stt1.py`): on a raised exception return the fixed
fallback; on success strip the text and return the second fixed fallback
when it is empty, the stripped text otherwise. -/
def transcribe_audio : SvcResult → String
  | SvcResult.err => "Sorry, I couldn\x27t understand the audio."
  | SvcResult.ok t =>
    if pyStrip t = "" then "Sorry, I couldn\x27t hear you clearly."
    else pyStrip t

/-- `query_llm` (`llm.py`): on a raised exception return the fixed fallback;
on success return the stripped completion text. -/
def query_llm : SvcResult → String
  | SvcResult.err =>
    "I\x27m sorry, I couldn\x27t generate a response at the moment. Please try again later."
  | SvcResult.ok r => pyStrip r

/-- State of one `AudioListener` as `start_listening` sees it
(`audio_listener.py`): the `listening` flag, the rolling buffer, the
`speech_detected` event, and the number of capture threads launched so
far (each `threading.Thread(...).start()` adds one). -/
structure ListenerState where
  listening : Bool
  buffer : List Nat
  speech_detected : Bool
  threads_spawned : Nat
deriving DecidableEq

/-- Observable outcome of `AudioListener.start_listening`:
`alreadyListening` is the guard path that logs the "Already listening"
warning and returns without touching any state; `started` is the normal
path. -/
inductive StartOutcome where
  | alreadyListening
  | started
deriving DecidableEq

/-- `AudioListener.start_listening` (`audio_listener.py`): when already
listening, warn and return unchanged; otherwise reset the buffer, set the
listening flag, clear the speech event, and launch the capture thread. -/
def start_listening (s : ListenerState) : StartOutcome × ListenerState :=
  if s.listening then
    (StartOutcome.alreadyListening, s)
  else
    (StartOutcome.started,
      { listening := true, buffer := [], speech_detected := false,
        threads_spawned := s.threads_spawned + 1 })

/-- Playback bookkeeping of one session as `_play_response_async` sees it
(`conversation_manager.py`): the shared `stop_tts_flag` and the alive flags
of every playback task spawned so far, the most recently spawned one (the
`session["playback_thread"]` slot) at the head. -/
structure PlayState where
  stop_tts_flag : Bool
  tasks : List Bool
deriving DecidableEq

/-- The guard of `_play_response_async` (`conversation_manager.py`, lines
82-85): if the previous playback thread is still alive, set the session's
`stop_tts_flag` and join it (after the join it has finished). -/
def stop_previous (s : PlayState) : PlayState :=
  match s.tasks with
  | [] => s
  | t :: rest =>
    if t then { stop_tts_flag := true, tasks := false :: rest } else s

/-- `_play_response_async` (`conversation_manager.py`): stop the previous
playback if it is alive, then spawn the new playback thread and store it in
the `playback_thread` slot. -/
def play_response_async (s : PlayState) : PlayState :=
  let s2 := stop_previous s
  { s2 with tasks := true :: s2.tasks }

/-- Number of playback tasks of a session that are still alive. -/
def aliveCount (tasks : List Bool) : Nat :=
  (tasks.filter (fun b => b)).length

/-- Outcome of the opaque `WavesClient.synthesize` call (`tts1.py`):
it wrote the output file, it returned without writing it, or it raised. -/
inductive SynthResult where
  | fileWritten
  | noFile
  | raised
deriving DecidableEq

/-- Observable result of `generate_speech` (`tts1.py`): the returned value
(`None` or the output path), whether synthesis was attempted, and whether an
output file exists. -/
structure TTSOutcome where
  result : Option String
  synth_attempted : Bool
  file_written : Bool
deriving DecidableEq

/-- `generate_speech` (`tts1.py`), with the Smallest.ai client opaque:
return `None` immediately on whitespace-only input (before any client
initialization, synthesis attempt, or file creation); otherwise initialize
the client (`None` on failure), synthesize into the output path, and return
`None` unless the output file exists. The markdown cleaning
(`clean_text_for_tts`) and the output path are abstracted into the opaque
synthesis call, which receives the original text. -/
def generate_speech (text : String) (clientOk : Bool) (synth : String → SynthResult) :
    TTSOutcome :=
  if pyStrip text = "" then ⟨none, false, false⟩
  else if clientOk = false then ⟨none, false, false⟩
  else
    match synth text with
    | SynthResult.fileWritten => ⟨some "tts_output", true, true⟩
    | SynthResult.noFile => ⟨none, true, false⟩
    | SynthResult.raised => ⟨none, true, false⟩

/-! ## Theorems -/

theorem frameGenAux_bytes (n : Nat) (dur ts : ℚ) (audio : List Nat) :
    ∀ f ∈ frameGenAux n dur ts audio, f.bytes.length = n := by
  induction ts, audio using frameGenAux.induct n dur with
  | case1 ts audio h ih =>
    rw [frameGenAux, dif_pos h]
    intro f hf
    rcases List.mem_cons.mp hf with rfl | hf
    · exact List.length_take_of_le h.2
    · exact ih f hf
  | case2 ts audio h =>
    rw [frameGenAux, dif_neg h]
    intro f hf
    simp at hf

theorem frameGenAux_flatten (n : Nat) (dur ts : ℚ) (audio : List Nat) :
    ((frameGenAux n dur ts audio).map (fun f => f.bytes)).flatten
      = audio.take (n * (audio.length / n)) := by
  induction ts, audio using frameGenAux.induct n dur with
  | case1 ts audio h ih =>
    rw [frameGenAux, dif_pos h]
    have hdiv : audio.length / n = (audio.length - n) / n + 1 :=
      Nat.div_eq_sub_div h.1 h.2
    have hlen : (audio.drop n).length = audio.length - n := List.length_drop n audio
    rw [List.map_cons, List.flatten_cons, ih, hlen, hdiv, Nat.mul_add, Nat.mul_one,
      Nat.add_comm, List.take_add]
  | case2 ts audio h =>
    rw [frameGenAux, dif_neg h]
    rcases Nat.eq_zero_or_pos n with hn | hn
    · simp [hn]
    · have hnot : ¬ n ≤ audio.length := fun hle => h ⟨hn, hle⟩
      have hlt : audio.length < n := Nat.lt_of_not_le hnot
      rw [Nat.div_eq_of_lt hlt, Nat.mul_zero, List.take_zero, List.map_nil, List.flatten_nil]

/-- C4: `frame_generator` yields only frames of exactly the configured frame
size, and the concatenation of all yielded frames' bytes in order equals the
prefix of the input whose length is the largest multiple of the frame size
not exceeding the input length; the result is a finite list computed by a
pure, deterministic function of the input. -/
theorem frame_generator_exact_and_concat (n : Nat) (sr : ℚ) (audio : List Nat) :
    (∀ f ∈ frame_generator n sr audio, f.bytes.length = n) ∧
    ((frame_generator n sr audio).map (fun f => f.bytes)).flatten
      = audio.take (n * (audio.length / n)) :=
  ⟨frameGenAux_bytes n _ 0 audio, frameGenAux_flatten n _ 0 audio⟩

theorem run_callbacks_buffer_invariant (fs maxLen : Nat) (hm : 0 < maxLen)
    (isSp : List Nat → Bool) :
    ∀ (blocks : List (List Nat)) (st : CaptureState) (pre : List Nat),
      st.buffer.length ≤ maxLen → st.buffer <:+ pre →
      (run_callbacks fs maxLen isSp st blocks).buffer.length ≤ maxLen ∧
      (run_callbacks fs maxLen isSp st blocks).buffer <:+ pre ++ blocks.flatten := by
  intro blocks
  induction blocks with
  | nil =>
    intro st pre hlen hsuf
    simpa [run_callbacks] using ⟨hlen, hsuf⟩
  | cons b bs ih =>
    intro st pre hlen hsuf
    have hstep :
        (listener_callback fs maxLen isSp st b).buffer.length ≤ maxLen ∧
        (listener_callback fs maxLen isSp st b).buffer <:+ pre ++ b := by
      have hsufb : st.buffer ++ b <:+ pre ++ b := by
        obtain ⟨t, ht⟩ := hsuf
        exact ⟨t, by rw [← List.append_assoc, ht]⟩
      unfold listener_callback
      by_cases hc : maxLen < (st.buffer ++ b).length
      · simp only [hc, if_true]
        constructor
        · rw [pySliceLast, if_neg (Nat.pos_iff_ne_zero.mp hm), List.length_drop]
          exact le_of_eq (Nat.sub_sub_self (le_of_lt hc))
        · rw [pySliceLast, if_neg (Nat.pos_iff_ne_zero.mp hm)]
          exact (List.drop_suffix _ _).trans hsufb
      · simp only [hc, if_false]
        exact ⟨Nat.le_of_not_lt hc, hsufb⟩
    have hrest := ih (listener_callback fs maxLen isSp st b) (pre ++ b) hstep.1 hstep.2
    constructor
    · exact hrest.1
    · have h2 := hrest.2
      rwa [List.append_assoc] at h2

/-- C5: after any sequence of blocks appended by the capture callback, the
rolling buffer's length never exceeds `MAX_BUFFER_LEN`, and its contents are
a suffix of the concatenation of all bytes appended so far (the most
recently appended bytes are retained). -/
theorem capture_buffer_bounded_suffix (fs maxLen : Nat) (hm : 0 < maxLen)
    (isSp : List Nat → Bool) (blocks : List (List Nat)) :
    (run_callbacks fs maxLen isSp ⟨[], [], false⟩ blocks).buffer.length ≤ maxLen ∧
    (run_callbacks fs maxLen isSp ⟨[], [], false⟩ blocks).buffer <:+ blocks.flatten := by
  have h := run_callbacks_buffer_invariant fs maxLen hm isSp blocks ⟨[], [], false⟩ []
    (by simp) (by simp)
  simpa using h

/-- Witness for C5 at a concrete input: two three-byte blocks against a
four-byte maximum leave the last four bytes in the buffer. -/
theorem capture_buffer_bounded_suffix_witness :
    0 < 4 ∧
    ((run_callbacks 2 4 (fun _ => false) ⟨[], [], false⟩ [[1, 2, 3], [4, 5, 6]]).buffer.length ≤ 4 ∧
     (run_callbacks 2 4 (fun _ => false) ⟨[], [], false⟩ [[1, 2, 3], [4, 5, 6]]).buffer
       <:+ ([[1, 2, 3], [4, 5, 6]] : List (List Nat)).flatten) :=
  ⟨by decide, capture_buffer_bounded_suffix 2 4 (by decide) (fun _ => false) [[1, 2, 3], [4, 5, 6]]⟩

/-- C9 counterexample: a one-byte block (smaller than the 960-byte frame)
delivered to the callback with a classifier that returns `false` on every
input leaves the speaking flag at its prior value `true`, whereas the claim
requires the flag to be written with the classification (`false`) of the
one-frame suffix of the residual concatenated with the block: on a block
smaller than one frame the code does not write the flag at all. -/
theorem callback_flag_counterexample :
    (listener_callback 960 96000 (fun _ => false) ⟨[], [], true⟩ [0]).speech_detected = true ∧
    speaking_flag_claim 960 (fun _ => false) [] [0] = false := by
  refine ⟨?_, ?_⟩ <;> decide

/-- C9 amended: on every capture callback, if the delivered block is at
least one frame long the speaking flag is set to the speech classification
of the block's most recent one-frame-length suffix; if the block is smaller
than one frame the speaking flag is left unchanged (no residual bytes are
consulted and nothing is written). -/
theorem callback_flag_update_rule (fs maxLen : Nat) (isSp : List Nat → Bool)
    (st : CaptureState) (block : List Nat) :
    (listener_callback fs maxLen isSp st block).speech_detected =
      if fs ≤ block.length then isSp (pySliceLast fs block)
      else st.speech_detected := rfl

theorem pyInt_mul_lt_iff (cap : Nat) (ratio : ℚ) (hr : 0 ≤ ratio) (m : Nat) :
    (pyInt ((cap : ℚ) * ratio) < (m : ℤ)) ↔ (ratio * (cap : ℚ) < (m : ℚ)) := by
  rw [pyInt, if_pos (mul_nonneg (by positivity) hr), Int.floor_lt, mul_comm]
  push_cast
  exact Iff.rfl

theorem vad_step_eq (cap : Nat) (ratio : ℚ) (hr : 0 ≤ ratio) (isSp : List Nat → Bool)
    (st : VadState) (f : List Nat) :
    vad_collector_step cap (pyInt ((cap : ℚ) * ratio)) isSp st f
      = collect_segments_spec_step cap ratio isSp st f := by
  obtain ⟨t, v, r⟩ := st
  cases t
  · rfl
  · simp only [vad_collector_step, collect_segments_spec_step]
    norm_num
    exact if_congr (pyInt_mul_lt_iff cap ratio hr _) rfl rfl

theorem vadFold_eq (step1 step2 : VadState → List Nat → VadState × Option (List Nat))
    (hstep : ∀ st f, step1 st f = step2 st f) :
    ∀ (frames : List (List Nat)) (st : VadState),
      vadFold step1 st frames = vadFold step2 st frames := by
  intro frames
  induction frames with
  | nil => intro st; rfl
  | cons f fs ih =>
    intro st
    simp only [vadFold, hstep, ih]

/-- C1: `vad_collector` implements the two-state machine exactly as the
specification words it: for every finite frame sequence, every ring
capacity, every initial ring content, and every non-negative ratio, its
output coincides with the machine that, while Idle, pushes each
`(frame, is_speech)` pair into the ring buffer and, once the count of
speech-flagged entries exceeds 0.8 of the ring capacity, transitions to
Triggered emitting all buffered frames in arrival order and clearing the
ring; and, while Triggered, appends each frame to the segment, pushes the
pair into the ring, and once the count of non-speech entries exceeds
`trigger_ratio * ring_capacity` yields the concatenated segment bytes and
returns to Idle with accumulator and ring cleared. -/
theorem vad_collector_matches_spec (cap : Nat) (ratio : ℚ) (hr : 0 ≤ ratio)
    (isSpeech : List Nat → Bool) (ring0 : List (List Nat × Bool))
    (frames : List (List Nat)) :
    vad_collector cap ratio isSpeech ring0 frames
      = collect_segments_spec cap ratio isSpeech ring0 frames := by
  unfold vad_collector collect_segments_spec
  rw [vadFold_eq _ _ (vad_step_eq cap ratio hr isSpeech) frames ⟨false, [], ring0⟩]

/-- Witness for C1 at a concrete input: capacity 2, the default ratio 0.9,
a classifier that flags frames containing byte 1, and five one-byte
frames. -/
theorem vad_collector_matches_spec_witness :
    0 ≤ (9 / 10 : ℚ) ∧
    vad_collector 2 (9 / 10) (fun f => decide (1 ∈ f)) [] [[1], [1], [0], [0], [0]]
      = collect_segments_spec 2 (9 / 10) (fun f => decide (1 ∈ f)) [] [[1], [1], [0], [0], [0]] :=
  ⟨by norm_num,
    vad_collector_matches_spec 2 (9 / 10) (by norm_num) (fun f => decide (1 ∈ f)) []
      [[1], [1], [0], [0], [0]]⟩

theorem listPrefixOf_iff (n h : List Char) : listPrefixOf n h = true ↔ n <+: h := by
  induction n generalizing h with
  | nil => simp [listPrefixOf]
  | cons a xs ih =>
    cases h with
    | nil => simp [listPrefixOf]
    | cons b ys =>
      rw [listPrefixOf, List.cons_prefix_cons]
      simp only [Bool.and_eq_true, beq_iff_eq, ih]

theorem listContains_iff (n h : List Char) : listContains n h = true ↔ n <:+: h := by
  induction h with
  | nil => simp [listContains, listPrefixOf_iff]
  | cons b ys ih =>
    rw [listContains]
    simp only [Bool.or_eq_true, listPrefixOf_iff, ih]
    exact (List.infix_cons_iff).symm

/-- C2: each Listening iteration pushes the current speaking flag into the
sliding window and behaves exactly as specified: any true entry in the
window resets silence-start to unset; otherwise silence-start is recorded
when unset, and once now minus silence-start reaches the 0.8 s threshold
the utterance is finalized, snapshotting and clearing the accumulated
buffer, clearing the sliding window, resetting the listener buffer, and
handing the snapshot to turn processing. -/
theorem run_loop_step_matches_spec (st : CoordState) (chunk : List Nat) (sp : Bool)
    (now : ℚ) :
    run_loop_step st chunk sp now = coordinator_spec_step st chunk sp now := by
  unfold run_loop_step coordinator_spec_step
  by_cases hw : (dequePush 10 st.window sp).any (fun b => b) = true
  · simp only [hw, if_true]
  · simp only [hw, if_false, Bool.false_eq_true]
    cases hss : st.silence_start with
    | none =>
      simp [hss]
      norm_num
    | some t0 => simp [hss]

/-- C3 counterexample: with a previous user entry whose content is the empty
string and a new transcription containing the keywords "and" and "also",
the claim's merge condition holds (previous entry exists, has role "user",
and the new text contains a continuation keyword) yet the code appends a
second user entry instead of merging, because `_is_followup` returns false
whenever the previous input is empty. -/
theorem followup_merge_counterexample :
    containsContinuationKw "and also explain that" = true ∧
    apply_user_turn [⟨"user", ""⟩] "and also explain that"
      = [⟨"user", ""⟩, ⟨"user", "and also explain that"⟩] ∧
    userCount (apply_user_turn [⟨"user", ""⟩] "and also explain that") = 2 := by
  refine ⟨?_, ?_, ?_⟩ <;> decide

/-- C3 amended: the new transcription is merged into the immediately
preceding history entry exactly when that entry exists, has role "user",
has non-empty content, and the new text contains (case-insensitively) a
continuation keyword; merging pops the previous entry and appends one whose
content is the previous text, a space, then the new text, and in every
other case the new text is appended as a new user entry. -/
theorem followup_merge_rule (history : List Msg) (t : String) (m : Msg)
    (h : history.getLast? = some m) :
    apply_user_turn history t =
      if m.role = "user" && !(m.content = "" : Bool) && containsContinuationKw t then
        history.dropLast ++ [⟨"user", m.content ++ " " ++ t⟩]
      else history ++ [⟨"user", t⟩] := by
  unfold apply_user_turn
  rw [h]
  by_cases hr : m.role = "user" <;> by_cases hc : m.content = "" <;>
    simp [is_followup, containsContinuationKw, hr, hc]

/-- Witness for C3's amended rule at the specification's own scenario:
merging "and also explain that" into the previous user entry
"what is a derivative" replaces it with the concatenated entry, keeping the
history length constant. -/
theorem followup_merge_rule_witness :
    ([⟨"user", "what is a derivative"⟩] : List Msg).getLast?
        = some ⟨"user", "what is a derivative"⟩ ∧
    apply_user_turn [⟨"user", "what is a derivative"⟩] "and also explain that"
      = [⟨"user", "what is a derivative and also explain that"⟩] := by
  refine ⟨rfl, ?_⟩
  rw [followup_merge_rule [⟨"user", "what is a derivative"⟩] "and also explain that"
    ⟨"user", "what is a derivative"⟩ rfl]
  decide

/-- C6: `transcribe_audio` and `query_llm` never propagate an error: the
transcription result is always a non-empty string, a raised transcription
error and an empty transcription each yield their fixed fallback string,
and a raised language-model error yields the fixed user-displayable
fallback, so turn processing always completes with some string result. -/
theorem service_fallbacks (svc : SvcResult) (t : String) (ht : pyStrip t = "") :
    transcribe_audio svc ≠ "" ∧
    transcribe_audio SvcResult.err = "Sorry, I couldn\x27t understand the audio." ∧
    transcribe_audio (SvcResult.ok t) = "Sorry, I couldn\x27t hear you clearly." ∧
    query_llm SvcResult.err
      = "I\x27m sorry, I couldn\x27t generate a response at the moment. Please try again later." := by
  refine ⟨?_, rfl, ?_, rfl⟩
  · cases svc with
    | err => decide
    | ok s =>
      show (if pyStrip s = "" then _ else pyStrip s) ≠ ""
      by_cases h : pyStrip s = ""
      · rw [if_pos h]
        decide
      · rw [if_neg h]
        exact h
  · show (if pyStrip t = "" then _ else pyStrip t) = _
    rw [if_pos ht]

/-- Witness for C6 at the empty transcription text. -/
theorem service_fallbacks_witness :
    pyStrip "" = "" ∧
    (transcribe_audio SvcResult.err ≠ "" ∧
     transcribe_audio SvcResult.err = "Sorry, I couldn\x27t understand the audio." ∧
     transcribe_audio (SvcResult.ok "") = "Sorry, I couldn\x27t hear you clearly." ∧
     query_llm SvcResult.err
       = "I\x27m sorry, I couldn\x27t generate a response at the moment. Please try again later.") :=
  ⟨by decide, service_fallbacks SvcResult.err "" (by decide)⟩

/-- C7: calling `start_listening` while already running takes the
AlreadyListening path (the logged warning plus early return), leaving the
state untouched and spawning no second capture thread; calling it while
stopped always succeeds, resetting the rolling buffer, clearing the
speaking flag, setting the listening flag, and launching exactly one new
capture thread. -/
theorem start_listening_guard (s : ListenerState) :
    (s.listening = true →
      (start_listening s).1 = StartOutcome.alreadyListening ∧
      (start_listening s).2 = s) ∧
    (s.listening = false →
      (start_listening s).1 = StartOutcome.started ∧
      (start_listening s).2
        = (⟨true, [], false, s.threads_spawned + 1⟩ : ListenerState)) := by
  constructor <;> intro h <;> simp [start_listening, h]

/-- Witness for C7 at concrete listener states, one already running and one
stopped. -/
theorem start_listening_guard_witness :
    ((start_listening ⟨true, [7], true, 1⟩).1 = StartOutcome.alreadyListening ∧
     (start_listening ⟨true, [7], true, 1⟩).2 = (⟨true, [7], true, 1⟩ : ListenerState)) ∧
    ((start_listening ⟨false, [7], true, 1⟩).1 = StartOutcome.started ∧
     (start_listening ⟨false, [7], true, 1⟩).2 = (⟨true, [], false, 2⟩ : ListenerState)) :=
  ⟨(start_listening_guard ⟨true, [7], true, 1⟩).1 rfl,
   (start_listening_guard ⟨false, [7], true, 1⟩).2 rfl⟩

theorem aliveCount_eq_zero (l : List Bool) (h : l.all (fun b => !b) = true) :
    aliveCount l = 0 := by
  induction l with
  | nil => rfl
  | cons b bs ih =>
    simp only [List.all_cons, Bool.and_eq_true, Bool.not_eq_eq_eq_not, Bool.not_true] at h
    have hb : b = false := by simpa using h.1
    simp [aliveCount, hb]
    have hrest := ih h.2
    simpa [aliveCount] using hrest

theorem stop_previous_all_dead (s : PlayState)
    (hI : s.tasks.tail.all (fun b => !b) = true) :
    (stop_previous s).tasks.all (fun b => !b) = true := by
  rcases s with ⟨flag, tasks⟩
  cases tasks with
  | nil => simp [stop_previous]
  | cons t rest =>
    simp only [List.tail_cons] at hI
    cases t with
    | true => simpa [stop_previous] using hI
    | false => simpa [stop_previous] using hI

/-- C8: starting a new playback while at most the most recent playback task
of the session is still alive first sets the session's cancellation flag
and joins the alive task (it has finished before the new task is spawned),
and afterwards exactly one playback task is alive — the newly spawned
one. -/
theorem playback_join_before_replace (s : PlayState)
    (hI : s.tasks.tail.all (fun b => !b) = true) :
    (∀ rest, s.tasks = true :: rest →
      (stop_previous s).stop_tts_flag = true ∧ (stop_previous s).tasks = false :: rest) ∧
    (play_response_async s).tasks = true :: (stop_previous s).tasks ∧
    aliveCount (play_response_async s).tasks = 1 ∧
    (play_response_async s).tasks.tail.all (fun b => !b) = true := by
  have hdead : (stop_previous s).tasks.all (fun b => !b) = true :=
    stop_previous_all_dead s hI
  refine ⟨?_, rfl, ?_, ?_⟩
  · intro rest hr
    rcases s with ⟨flag, tasks⟩
    simp only at hr
    subst hr
    simp [stop_previous]
  · show aliveCount (true :: (stop_previous s).tasks) = 1
    simp [aliveCount]
    have hzero := aliveCount_eq_zero _ hdead
    simpa [aliveCount] using hzero
  · simpa using hdead

/-- Witness for C8: a session whose single previous playback task is alive;
starting a new playback sets the cancellation flag, finishes the old task,
and leaves exactly one alive task. -/
theorem playback_join_before_replace_witness :
    ((⟨false, [true]⟩ : PlayState).tasks.tail.all (fun b => !b) = true) ∧
    (stop_previous ⟨false, [true]⟩).stop_tts_flag = true ∧
    (stop_previous ⟨false, [true]⟩).tasks = [false] ∧
    (play_response_async ⟨false, [true]⟩).tasks
      = true :: (stop_previous ⟨false, [true]⟩).tasks ∧
    aliveCount (play_response_async ⟨false, [true]⟩).tasks = 1 := by
  have h := playback_join_before_replace ⟨false, [true]⟩ rfl
  exact ⟨rfl, (h.1 [] rfl).1, (h.1 [] rfl).2, h.2.1, h.2.2.1⟩

/-- C10: `generate_speech` returns `None` for every input text that is
empty or consists only of whitespace, before the client is initialized and
without attempting synthesis or creating any output file, so a
whitespace-only reply produces no audio and nothing to play back. -/
theorem generate_speech_empty_input (text : String) (clientOk : Bool)
    (synth : String → SynthResult) (h : pyStrip text = "") :
    generate_speech text clientOk synth = ⟨none, false, false⟩ := by
  unfold generate_speech
  rw [if_pos h]

/-- Witness for C10 at a whitespace-only input. -/
theorem generate_speech_empty_input_witness :
    pyStrip "  " = "" ∧
    generate_speech "  " true (fun _ => SynthResult.fileWritten) = ⟨none, false, false⟩ :=
  ⟨by decide, generate_speech_empty_input "  " true (fun _ => SynthResult.fileWritten) (by decide)⟩
